import Mathlib

/-!
Shallow embedding of the `pheng` 2D physics sandbox (src/main.rs) over ℝ.
The source works on `f32` / glam `Vec2`; here scalars are idealised as real
numbers.  glam's conventions are kept: `length v = sqrt (v ⬝ v)` and
`normalize v = (1 / length v) * v` (for the zero vector real division by
zero yields `0`, so `normalize 0 = 0`, the model's stand-in for glam's
non-finite result).  Rust's `f32::signum` returns `1` at `0`, which
`signum` below mirrors.
-/

namespace Pheng

/-- 2D vector, mirroring glam `Vec2`. -/
@[ext]
structure Vec2 where
  x : ℝ
  y : ℝ

noncomputable instance : Add Vec2 := ⟨fun v w => ⟨v.x + w.x, v.y + w.y⟩⟩
noncomputable instance : Sub Vec2 := ⟨fun v w => ⟨v.x - w.x, v.y - w.y⟩⟩
noncomputable instance : Neg Vec2 := ⟨fun v => ⟨-v.x, -v.y⟩⟩
noncomputable instance : Zero Vec2 := ⟨⟨0, 0⟩⟩
noncomputable instance : SMul ℝ Vec2 := ⟨fun s v => ⟨s * v.x, s * v.y⟩⟩
noncomputable instance : HDiv Vec2 ℝ Vec2 := ⟨fun v s => ⟨v.x / s, v.y / s⟩⟩

@[simp] theorem Vec2.add_x (v w : Vec2) : (v + w).x = v.x + w.x := rfl
@[simp] theorem Vec2.add_y (v w : Vec2) : (v + w).y = v.y + w.y := rfl
@[simp] theorem Vec2.sub_x (v w : Vec2) : (v - w).x = v.x - w.x := rfl
@[simp] theorem Vec2.sub_y (v w : Vec2) : (v - w).y = v.y - w.y := rfl
@[simp] theorem Vec2.smul_x (s : ℝ) (v : Vec2) : (s • v).x = s * v.x := rfl
@[simp] theorem Vec2.smul_y (s : ℝ) (v : Vec2) : (s • v).y = s * v.y := rfl
@[simp] theorem Vec2.zero_x : (0 : Vec2).x = 0 := rfl
@[simp] theorem Vec2.zero_y : (0 : Vec2).y = 0 := rfl
@[simp] theorem Vec2.div_x (v : Vec2) (s : ℝ) : (v / s).x = v.x / s := rfl
@[simp] theorem Vec2.div_y (v : Vec2) (s : ℝ) : (v / s).y = v.y / s := rfl
@[simp] theorem Vec2.mk_x (a b : ℝ) : (Vec2.mk a b).x = a := rfl
@[simp] theorem Vec2.mk_y (a b : ℝ) : (Vec2.mk a b).y = b := rfl

/-- glam `Vec2::dot`. -/
def Vec2.dot (v w : Vec2) : ℝ := v.x * w.x + v.y * w.y

/-- glam `Vec2::length`: square root of the self dot product. -/
noncomputable def Vec2.length (v : Vec2) : ℝ := Real.sqrt (v.dot v)

/-- glam `Vec2::normalize`: the vector scaled by the reciprocal of its
length (degenerate at the zero vector, where the model yields `0`). -/
noncomputable def Vec2.normalize (v : Vec2) : Vec2 := (1 / v.length) • v

theorem Vec2.dot_self_nonneg (v : Vec2) : 0 ≤ v.dot v := by
  have hx := mul_self_nonneg v.x
  have hy := mul_self_nonneg v.y
  simp only [Vec2.dot]; linarith

theorem Vec2.length_nonneg (v : Vec2) : 0 ≤ v.length := Real.sqrt_nonneg _

theorem Vec2.length_smul (s : ℝ) (v : Vec2) :
    (s • v).length = |s| * v.length := by
  have h : (s • v).dot (s • v) = s ^ 2 * v.dot v := by
    simp only [Vec2.dot, Vec2.smul_x, Vec2.smul_y]; ring
  simp only [Vec2.length, h, Real.sqrt_mul (sq_nonneg s), Real.sqrt_sq_eq_abs]

theorem Vec2.length_normalize (v : Vec2) (h : 0 < v.length) :
    v.normalize.length = 1 := by
  have hne : v.length ≠ 0 := ne_of_gt h
  simp only [Vec2.normalize, Vec2.length_smul]
  rw [abs_of_nonneg (by positivity)]
  field_simp

theorem Vec2.dot_self_of_length_one (v : Vec2) (h : v.length = 1) :
    v.dot v = 1 := Real.sqrt_eq_one.mp h

/-- length of an axis-aligned vector `(a, 0)`. -/
theorem Vec2.length_axis (a : ℝ) : Vec2.length ⟨a, 0⟩ = |a| := by
  simp only [Vec2.length, Vec2.dot, Vec2.mk_x, Vec2.mk_y, mul_zero, add_zero]
  exact Real.sqrt_mul_self_eq_abs a

/-- Circle shape (`struct Circle { pos, r }`). -/
structure Circle where
  pos : Vec2
  r : ℝ

/-- Infinite line `a·x + b·y + c = 0` (`struct Line { a, b, c }`). -/
structure Line where
  a : ℝ
  b : ℝ
  c : ℝ

/-- Contact information (`struct Penetration { pos, normal, depth }`). -/
structure Penetration where
  pos : Vec2
  normal : Vec2
  depth : ℝ

/-- Tri-state outcome of a narrow-phase test (`enum CollisionResult`). -/
inductive CollisionResult where
  | NoCollision : CollisionResult
  | Penetration : Penetration → CollisionResult
  | FullOverlap : CollisionResult

/-- Rust `f32::signum` on reals: `1` for nonnegative input (Rust maps `+0.0`
to `1.0`), `-1` for negative input. -/
noncomputable def signum (t : ℝ) : ℝ := if t < 0 then -1 else 1

/-- `fn circle_circle_collision`: classify two circles by the distance of
their centers. -/
noncomputable def circle_circle_collision (c1 c2 : Circle) : CollisionResult :=
  if (c1.pos - c2.pos).length > c1.r + c2.r then
    CollisionResult.NoCollision
  else if (c1.pos - c2.pos).length > c2.r then
    CollisionResult.Penetration
      ⟨c1.pos - c1.r • (c1.pos - c2.pos).normalize, (c1.pos - c2.pos).normalize,
       c1.r + c2.r - (c1.pos - c2.pos).length⟩
  else
    CollisionResult.FullOverlap

/-- Perpendicular-foot parameter `t` of `fn circle_line_collision`:
`(a·cx + b·cy + c) / (a² + b²)`. -/
noncomputable def lineT (ci : Circle) (l : Line) : ℝ :=
  (l.a * ci.pos.x + l.b * ci.pos.y + l.c) / (l.a * l.a + l.b * l.b)

/-- Perpendicular offset vector `diff = (a·t, b·t)` of
`fn circle_line_collision`. -/
noncomputable def lineDiff (ci : Circle) (l : Line) : Vec2 :=
  ⟨l.a * lineT ci l, l.b * lineT ci l⟩

/-- `fn circle_line_collision`: classify a circle against an infinite
one-sided line. -/
noncomputable def circle_line_collision (ci : Circle) (l : Line) : CollisionResult :=
  if (lineDiff ci l).length > ci.r then
    if lineT ci l > 0 then CollisionResult.NoCollision
    else CollisionResult.FullOverlap
  else
    CollisionResult.Penetration
      ⟨ci.pos - ci.r • (lineDiff ci l).normalize, (lineDiff ci l).normalize,
       ci.r - (lineDiff ci l).length * signum (lineT ci l)⟩

/-- Closed variant over bounded shapes (`enum FiniteShape`); only circles. -/
inductive FiniteShape where
  | Circle : Circle → FiniteShape

/-- Closed variant over unbounded shapes (`enum InfiniteShape`); only lines. -/
inductive InfiniteShape where
  | Line : Line → InfiniteShape

/-- Static obstacle (`enum Geometry`). -/
inductive Geometry where
  | Infinite : InfiniteShape → Geometry
  | Finite : FiniteShape → Geometry

/-- Rigid body (`struct Body`). -/
@[ext]
structure Body where
  mass : ℝ
  inertia : ℝ
  shape : FiniteShape
  pos : Vec2
  vel : Vec2
  force : Vec2
  angle : ℝ
  omega : ℝ
  torque : ℝ

/-- `Body::step`: semi-implicit Euler integration, then reset of the force
and torque accumulators.  The sequential Rust mutations
(`vel += acc*dt; pos += vel*dt; force = 0;` and the angular analogue) are
written as one record update over the pre-state. -/
noncomputable def Body.step (b : Body) (dt : ℝ) : Body :=
  let acc := b.force / b.mass
  let vel := b.vel + dt • acc
  let pos := b.pos + dt • vel
  let alpha := b.torque / b.inertia
  let omega := b.omega + alpha * dt
  let angle := b.angle + omega * dt
  { b with vel := vel, pos := pos, force := 0,
           omega := omega, angle := angle, torque := 0 }

/-- The narrow-phase result computed inside `Body::collide` (`res` in the
source): the body's own circle, recentered at `self.pos` with the shape's
radius, tested against the geometry. -/
noncomputable def Body.collisionTest (b : Body) (geom : Geometry) : CollisionResult :=
  match b.shape with
  | FiniteShape.Circle c1 =>
    match geom with
    | Geometry.Finite (FiniteShape.Circle c2) =>
        circle_circle_collision ⟨b.pos, c1.r⟩ c2
    | Geometry.Infinite (InfiniteShape.Line l) =>
        circle_line_collision ⟨b.pos, c1.r⟩ l

/-- `Body::collide`: on `Penetration`, reflect the velocity along the
contact normal (`vel -= 2 * vel.dot(normal) * normal`); otherwise leave
the body unchanged. -/
noncomputable def Body.collide (b : Body) (geom : Geometry) : Body :=
  match b.collisionTest geom with
  | CollisionResult.Penetration p =>
      { b with vel := b.vel - (2 * b.vel.dot p.normal) • p.normal }
  | _ => b

/-- Scene (`struct State`): static geometry plus the bodies. -/
structure State where
  geometry : List Geometry
  bodies : List Body

/-- `State::set_gravity`: add `f` to every body's force accumulator. -/
noncomputable def State.set_gravity (s : State) (f : Vec2) : State :=
  { s with bodies := s.bodies.map (fun b => { b with force := b.force + f }) }

/-- `State::collide`: every body is collided against every geometry entry,
outer loop over bodies, inner loop over geometry (a left fold). -/
noncomputable def State.collide (s : State) : State :=
  { s with bodies := s.bodies.map (fun b => s.geometry.foldl Body.collide b) }

/-- `State::step`: integrate every body, then run the collision pass. -/
noncomputable def State.step (s : State) (dt : ℝ) : State :=
  State.collide { s with bodies := s.bodies.map (fun b => b.step dt) }

theorem Body.collide_mass (b : Body) (g : Geometry) : (b.collide g).mass = b.mass := by
  unfold Body.collide; cases b.collisionTest g <;> rfl

theorem Body.collide_inertia (b : Body) (g : Geometry) :
    (b.collide g).inertia = b.inertia := by
  unfold Body.collide; cases b.collisionTest g <;> rfl

theorem Body.collide_shape (b : Body) (g : Geometry) : (b.collide g).shape = b.shape := by
  unfold Body.collide; cases b.collisionTest g <;> rfl

theorem Body.collide_pos (b : Body) (g : Geometry) : (b.collide g).pos = b.pos := by
  unfold Body.collide; cases b.collisionTest g <;> rfl

theorem Body.collide_force (b : Body) (g : Geometry) : (b.collide g).force = b.force := by
  unfold Body.collide; cases b.collisionTest g <;> rfl

theorem Body.collide_angle (b : Body) (g : Geometry) : (b.collide g).angle = b.angle := by
  unfold Body.collide; cases b.collisionTest g <;> rfl

theorem Body.collide_omega (b : Body) (g : Geometry) : (b.collide g).omega = b.omega := by
  unfold Body.collide; cases b.collisionTest g <;> rfl

theorem Body.collide_torque (b : Body) (g : Geometry) :
    (b.collide g).torque = b.torque := by
  unfold Body.collide; cases b.collisionTest g <;> rfl

theorem Body.collide_of_noCollision (b : Body) (g : Geometry)
    (h : b.collisionTest g = CollisionResult.NoCollision) : b.collide g = b := by
  unfold Body.collide; rw [h]

theorem Body.collide_of_fullOverlap (b : Body) (g : Geometry)
    (h : b.collisionTest g = CollisionResult.FullOverlap) : b.collide g = b := by
  unfold Body.collide; rw [h]

theorem Body.collide_of_penetration (b : Body) (g : Geometry) (p : Penetration)
    (h : b.collisionTest g = CollisionResult.Penetration p) :
    b.collide g = { b with vel := b.vel - (2 * b.vel.dot p.normal) • p.normal } := by
  unfold Body.collide; rw [h]

theorem foldl_collide_force (gs : List Geometry) (b : Body) :
    (gs.foldl Body.collide b).force = b.force := by
  induction gs generalizing b with
  | nil => rfl
  | cons g gs ih => rw [List.foldl_cons, ih, Body.collide_force]

theorem foldl_collide_torque (gs : List Geometry) (b : Body) :
    (gs.foldl Body.collide b).torque = b.torque := by
  induction gs generalizing b with
  | nil => rfl
  | cons g gs ih => rw [List.foldl_cons, ih, Body.collide_torque]

theorem Vec2.normalize_zero : (Vec2.mk 0 0).normalize = 0 := by
  unfold Vec2.normalize
  ext <;> simp

theorem Vec2.reflect_dot (v n : Vec2) (hnn : n.dot n = 1) :
    (v - (2 * v.dot n) • n).dot n = -(v.dot n) := by
  simp only [Vec2.dot, Vec2.sub_x, Vec2.sub_y, Vec2.smul_x, Vec2.smul_y] at hnn ⊢
  linear_combination (-2 * (v.x * n.x + v.y * n.y)) * hnn

theorem Vec2.reflect_tangent (v n : Vec2) (hnn : n.dot n = 1) :
    (v - (2 * v.dot n) • n) - ((v - (2 * v.dot n) • n).dot n) • n =
      v - (v.dot n) • n := by
  simp only [Vec2.dot, Vec2.sub_x, Vec2.sub_y, Vec2.smul_x, Vec2.smul_y] at hnn
  ext
  · simp only [Vec2.dot, Vec2.sub_x, Vec2.sub_y, Vec2.smul_x, Vec2.smul_y]
    linear_combination (2 * (v.x * n.x + v.y * n.y) * n.x) * hnn
  · simp only [Vec2.dot, Vec2.sub_x, Vec2.sub_y, Vec2.smul_x, Vec2.smul_y]
    linear_combination (2 * (v.x * n.x + v.y * n.y) * n.y) * hnn

theorem Vec2.reflect_length (v n : Vec2) (hnn : n.dot n = 1) :
    (v - (2 * v.dot n) • n).length = v.length := by
  unfold Vec2.length
  congr 1
  simp only [Vec2.dot, Vec2.sub_x, Vec2.sub_y, Vec2.smul_x, Vec2.smul_y] at hnn ⊢
  linear_combination (4 * (v.x * n.x + v.y * n.y) ^ 2) * hnn

/-- C7: `State.step dt` first integrates every body with `Body.step dt` (in
list order), and only afterwards runs the collision pass, in which every
body, in list order, is folded through `Body.collide` over every geometry
entry in list order: the final body list is exactly the per-body
geometry fold applied to the post-integration bodies, and the geometry
list is untouched. -/
theorem state_step_order (s : State) (dt : ℝ) :
    (s.step dt).geometry = s.geometry ∧
    (s.step dt).bodies =
      s.bodies.map (fun b => s.geometry.foldl Body.collide (b.step dt)) := by
  constructor
  · rfl
  · simp only [State.step, State.collide, List.map_map]
    rfl

/-- C8: `Body.collide` changes at most the velocity: position, angle,
angular velocity, torque, force, mass, inertia and shape are unchanged in
every case, and a `NoCollision` or `FullOverlap` test leaves the body
entirely unchanged. -/
theorem collide_frame (b : Body) (g : Geometry) :
    (b.collide g).pos = b.pos ∧ (b.collide g).angle = b.angle ∧
    (b.collide g).omega = b.omega ∧ (b.collide g).torque = b.torque ∧
    (b.collide g).force = b.force ∧ (b.collide g).mass = b.mass ∧
    (b.collide g).inertia = b.inertia ∧ (b.collide g).shape = b.shape ∧
    (b.collisionTest g = CollisionResult.NoCollision → b.collide g = b) ∧
    (b.collisionTest g = CollisionResult.FullOverlap → b.collide g = b) :=
  ⟨Body.collide_pos b g, Body.collide_angle b g, Body.collide_omega b g,
   Body.collide_torque b g, Body.collide_force b g, Body.collide_mass b g,
   Body.collide_inertia b g, Body.collide_shape b g,
   Body.collide_of_noCollision b g, Body.collide_of_fullOverlap b g⟩

/-- C8 witness: a body whose circle is far on the positive side of the line
`x = 0` tests as `NoCollision` and is left entirely unchanged. -/
theorem collide_frame_witness :
    Body.collide ⟨1, 1, FiniteShape.Circle ⟨⟨0, 0⟩, 1⟩, ⟨3, 0⟩, ⟨0, 0⟩, 0, 0, 0, 0⟩
        (Geometry.Infinite (InfiniteShape.Line ⟨1, 0, 0⟩)) =
      ⟨1, 1, FiniteShape.Circle ⟨⟨0, 0⟩, 1⟩, ⟨3, 0⟩, ⟨0, 0⟩, 0, 0, 0, 0⟩ := by
  have ht : lineT ⟨⟨3, 0⟩, 1⟩ ⟨1, 0, 0⟩ = 3 := by
    unfold lineT; norm_num
  have hd : lineDiff ⟨⟨3, 0⟩, 1⟩ ⟨1, 0, 0⟩ = ⟨3, 0⟩ := by
    unfold lineDiff; rw [ht]; ext <;> norm_num
  have htest :
      Body.collisionTest
          ⟨1, 1, FiniteShape.Circle ⟨⟨0, 0⟩, 1⟩, ⟨3, 0⟩, ⟨0, 0⟩, 0, 0, 0, 0⟩
          (Geometry.Infinite (InfiniteShape.Line ⟨1, 0, 0⟩)) =
        CollisionResult.NoCollision := by
    show circle_line_collision ⟨⟨3, 0⟩, 1⟩ ⟨1, 0, 0⟩ = CollisionResult.NoCollision
    unfold circle_line_collision
    rw [if_pos (by rw [hd, Vec2.length_axis]; norm_num),
        if_pos (by rw [ht]; norm_num)]
  exact (collide_frame _ _).2.2.2.2.2.2.2.2.1 htest

/-- C10: the outcome of `Body.collide` is independent of the `pos` stored
inside the body's circle shape: two bodies identical except for that
internal shape position collide identically (the test runs on a circle
recentered at the body's own `pos`, taking only the radius from the
shape), so the results agree on every field apart from the shape each
body carried in. -/
theorem collide_shape_pos_irrelevant (b : Body) (p q : Vec2) (r : ℝ) (g : Geometry) :
    Body.collide { b with shape := FiniteShape.Circle ⟨p, r⟩ } g =
      { Body.collide { b with shape := FiniteShape.Circle ⟨q, r⟩ } g with
        shape := FiniteShape.Circle ⟨p, r⟩ } := by
  have htest : Body.collisionTest { b with shape := FiniteShape.Circle ⟨p, r⟩ } g =
      Body.collisionTest { b with shape := FiniteShape.Circle ⟨q, r⟩ } g := rfl
  unfold Body.collide
  rw [htest]
  cases Body.collisionTest { b with shape := FiniteShape.Circle ⟨q, r⟩ } g <;> rfl

/-- C9: a body with zero force, torque, velocity and angular velocity (and
nonzero mass and inertia) is left unchanged by `Body.step`, hence by any
number of `step` calls. -/
theorem step_rest_fixed (b : Body) (dt : ℝ) (_hm : b.mass ≠ 0) (_hi : b.inertia ≠ 0)
    (hf : b.force = 0) (ht : b.torque = 0) (hv : b.vel = 0) (ho : b.omega = 0) :
    b.step dt = b ∧ ∀ n : ℕ, (fun x : Body => x.step dt)^[n] b = b := by
  have h1 : b.step dt = b := by
    unfold Body.step
    rw [hf, ht, hv, ho]
    ext <;> simp [hf, ht, hv, ho]
  exact ⟨h1, fun n => Function.iterate_fixed h1 n⟩

/-- C9 witness: a concrete resting body (mass and inertia `1`, everything
dynamic zero) is a fixed point of `Body.step` at `dt = 7`. -/
theorem step_rest_fixed_witness :
    Body.step ⟨1, 1, FiniteShape.Circle ⟨⟨0, 0⟩, 1⟩, ⟨5, 5⟩, 0, 0, 3, 0, 0⟩ 7 =
      ⟨1, 1, FiniteShape.Circle ⟨⟨0, 0⟩, 1⟩, ⟨5, 5⟩, 0, 0, 3, 0, 0⟩ :=
  (step_rest_fixed _ 7 one_ne_zero one_ne_zero rfl rfl rfl rfl).1

/-- C4: `Body.step dt` is semi-implicit Euler — the velocity is updated
from the accumulated force first and the position from the updated
velocity, likewise for the angular state — and both accumulators are reset
to zero; consequently after `State.step` every body's force and torque are
zero (the collision pass never touches them). -/
theorem step_euler (b : Body) (dt : ℝ) (_hm : b.mass ≠ 0) (_hi : b.inertia ≠ 0) :
    (b.step dt).vel = b.vel + dt • (b.force / b.mass) ∧
    (b.step dt).pos = b.pos + dt • (b.step dt).vel ∧
    (b.step dt).omega = b.omega + b.torque / b.inertia * dt ∧
    (b.step dt).angle = b.angle + (b.step dt).omega * dt ∧
    (b.step dt).force = 0 ∧ (b.step dt).torque = 0 ∧
    ∀ (s : State) (b' : Body), b' ∈ (s.step dt).bodies →
      b'.force = 0 ∧ b'.torque = 0 := by
  refine ⟨rfl, rfl, rfl, rfl, rfl, rfl, ?_⟩
  intro s b' hb
  simp only [State.step, State.collide, List.map_map, List.mem_map,
    Function.comp] at hb
  obtain ⟨b0, _, rfl⟩ := hb
  exact ⟨by rw [foldl_collide_force]; rfl, by rw [foldl_collide_torque]; rfl⟩

/-- C4 witness: a unit-mass body with force `(0,2)` stepped by `dt = 2`
gains velocity `(1,4)` from `(1,0)` and its accumulators are cleared. -/
theorem step_euler_witness :
    (Body.step ⟨1, 1, FiniteShape.Circle ⟨⟨0, 0⟩, 1⟩, ⟨0, 0⟩, ⟨1, 0⟩, ⟨0, 2⟩, 0, 0, 0⟩ 2).vel
        = ⟨1, 4⟩ ∧
    (Body.step ⟨1, 1, FiniteShape.Circle ⟨⟨0, 0⟩, 1⟩, ⟨0, 0⟩, ⟨1, 0⟩, ⟨0, 2⟩, 0, 0, 0⟩ 2).force
        = 0 ∧
    (Body.step ⟨1, 1, FiniteShape.Circle ⟨⟨0, 0⟩, 1⟩, ⟨0, 0⟩, ⟨1, 0⟩, ⟨0, 2⟩, 0, 0, 0⟩ 2).torque
        = 0 := by
  have h := step_euler ⟨1, 1, FiniteShape.Circle ⟨⟨0, 0⟩, 1⟩, ⟨0, 0⟩, ⟨1, 0⟩, ⟨0, 2⟩, 0, 0, 0⟩
    2 one_ne_zero one_ne_zero
  refine ⟨?_, h.2.2.2.2.1, h.2.2.2.2.2.1⟩
  rw [h.1]
  ext <;> norm_num

/-- C2: for a circle against a line (coefficients not both zero), with
`t = (a·cx + b·cy + c)/(a²+b²)`, `diff = (a·t, b·t)` and `dist = |diff|`:
when `dist > r` the result is `NoCollision` for `t > 0` and `FullOverlap`
for `t ≤ 0`; when `dist ≤ r` the result is `Penetration` with
`normal = normalize diff`, `pos = c.pos − r·normal` and
`depth = r − dist·sign t` (signed by `t`, not by `dist`). -/
theorem circle_line_spec (ci : Circle) (l : Line) (_hab : l.a ≠ 0 ∨ l.b ≠ 0) :
    ((lineDiff ci l).length > ci.r →
      (lineT ci l > 0 → circle_line_collision ci l = CollisionResult.NoCollision) ∧
      (lineT ci l ≤ 0 → circle_line_collision ci l = CollisionResult.FullOverlap)) ∧
    ((lineDiff ci l).length ≤ ci.r →
      circle_line_collision ci l = CollisionResult.Penetration
        ⟨ci.pos - ci.r • (lineDiff ci l).normalize, (lineDiff ci l).normalize,
         ci.r - (lineDiff ci l).length * signum (lineT ci l)⟩) := by
  refine ⟨fun hfar => ⟨fun htpos => ?_, fun htnonpos => ?_⟩, fun hnear => ?_⟩
  · unfold circle_line_collision
    rw [if_pos hfar, if_pos htpos]
  · unfold circle_line_collision
    rw [if_pos hfar, if_neg (not_lt.mpr htnonpos)]
  · unfold circle_line_collision
    rw [if_neg (not_lt.mpr hnear)]

/-- C2 witness: the unit circle centered at `(2,0)` against the line
`x = 0` has `t = 2 > 0` and `dist = 2 > 1`, hence `NoCollision`. -/
theorem circle_line_spec_witness :
    lineT ⟨⟨2, 0⟩, 1⟩ ⟨1, 0, 0⟩ > 0 ∧
    (lineDiff ⟨⟨2, 0⟩, 1⟩ ⟨1, 0, 0⟩).length > (1 : ℝ) ∧
    circle_line_collision ⟨⟨2, 0⟩, 1⟩ ⟨1, 0, 0⟩ = CollisionResult.NoCollision := by
  have ht : lineT ⟨⟨2, 0⟩, 1⟩ ⟨1, 0, 0⟩ = 2 := by
    unfold lineT; norm_num
  have hd : lineDiff ⟨⟨2, 0⟩, 1⟩ ⟨1, 0, 0⟩ = ⟨2, 0⟩ := by
    unfold lineDiff; rw [ht]; ext <;> norm_num
  have hlen : (lineDiff ⟨⟨2, 0⟩, 1⟩ ⟨1, 0, 0⟩).length > (1 : ℝ) := by
    rw [hd, Vec2.length_axis]; norm_num
  have htpos : lineT ⟨⟨2, 0⟩, 1⟩ ⟨1, 0, 0⟩ > 0 := by rw [ht]; norm_num
  exact ⟨htpos, hlen,
    ((circle_line_spec ⟨⟨2, 0⟩, 1⟩ ⟨1, 0, 0⟩ (Or.inl one_ne_zero)).1 hlen).1 htpos⟩

/-- C6: two circles whose center distance is positive, larger than `r2` and
at most `r1 + r2` are classified `Penetration` with
`normal = normalize (c1.pos − c2.pos)` (a unit vector), contact point
`c1.pos − r1·normal` and `depth = r1 + r2 − dist`. -/
theorem circle_circle_penetration_spec (c1 c2 : Circle)
    (h0 : 0 < (c1.pos - c2.pos).length)
    (h1 : c2.r < (c1.pos - c2.pos).length)
    (h2 : (c1.pos - c2.pos).length ≤ c1.r + c2.r) :
    circle_circle_collision c1 c2 = CollisionResult.Penetration
      ⟨c1.pos - c1.r • (c1.pos - c2.pos).normalize, (c1.pos - c2.pos).normalize,
       c1.r + c2.r - (c1.pos - c2.pos).length⟩ ∧
    ((c1.pos - c2.pos).normalize).length = 1 := by
  refine ⟨?_, Vec2.length_normalize _ h0⟩
  unfold circle_circle_collision
  rw [if_neg (not_lt.mpr h2), if_pos h1]

/-- C6 witness: circles of radius `2` centered at `(0,0)` and `(3,0)`
(`dist = 3`, so `2 < 3 ≤ 4`) penetrate with unit normal `(-1,0)`, contact
point `(2,0)` and depth `1`. -/
theorem circle_circle_penetration_spec_witness :
    circle_circle_collision ⟨⟨0, 0⟩, 2⟩ ⟨⟨3, 0⟩, 2⟩ =
      CollisionResult.Penetration ⟨⟨2, 0⟩, ⟨-1, 0⟩, 1⟩ ∧
    Vec2.length ⟨-1, 0⟩ = 1 := by
  have hd : (Circle.mk ⟨0, 0⟩ 2).pos - (Circle.mk ⟨3, 0⟩ 2).pos = (⟨-3, 0⟩ : Vec2) := by
    ext <;> norm_num
  have hlen : ((Circle.mk ⟨0, 0⟩ 2).pos - (Circle.mk ⟨3, 0⟩ 2).pos).length = 3 := by
    rw [hd, Vec2.length_axis]; norm_num
  have hnorm : Vec2.normalize ⟨-3, 0⟩ = ⟨-1, 0⟩ := by
    unfold Vec2.normalize
    rw [Vec2.length_axis]
    ext <;> norm_num
  have h := circle_circle_penetration_spec ⟨⟨0, 0⟩, 2⟩ ⟨⟨3, 0⟩, 2⟩
    (by rw [hlen]; norm_num) (by rw [hlen]; norm_num) (by rw [hlen]; norm_num)
  rw [hd, hnorm] at h
  obtain ⟨hres, hunit⟩ := h
  refine ⟨?_, ?_⟩
  · rw [hres]
    have hpay : (Circle.mk ⟨0, 0⟩ 2).pos - (Circle.mk ⟨0, 0⟩ 2).r • (⟨-1, 0⟩ : Vec2)
        = (⟨2, 0⟩ : Vec2) := by
      ext <;> norm_num
    rw [hpay, show Vec2.length ⟨-3, 0⟩ = 3 by rw [Vec2.length_axis]; norm_num]
    norm_num
  · exact hunit

/-- C1 counterexample: at the exact boundary `dist = r1 + r2` (circles of
radius `1` at `(3,0)` and radius `2` at the origin, `dist = 3`) the test
does not return `NoCollision` — the strict comparison `dist > r1 + r2`
fails and the second branch fires, yielding `Penetration` with depth `0`. -/
theorem circle_circle_boundary_cex :
    Vec2.length ((Circle.mk ⟨3, 0⟩ 1).pos - (Circle.mk ⟨0, 0⟩ 2).pos) = 1 + 2 ∧
    circle_circle_collision ⟨⟨3, 0⟩, 1⟩ ⟨⟨0, 0⟩, 2⟩ ≠ CollisionResult.NoCollision := by
  have hd : (Circle.mk ⟨3, 0⟩ 1).pos - (Circle.mk ⟨0, 0⟩ 2).pos = (⟨3, 0⟩ : Vec2) := by
    ext <;> norm_num
  have hlen : Vec2.length ((Circle.mk ⟨3, 0⟩ 1).pos - (Circle.mk ⟨0, 0⟩ 2).pos) = 3 := by
    rw [hd, Vec2.length_axis]; norm_num
  refine ⟨by rw [hlen]; norm_num, ?_⟩
  unfold circle_circle_collision
  rw [if_neg (by rw [hlen]; norm_num), if_pos (by rw [hlen]; norm_num)]
  exact fun h => CollisionResult.noConfusion h

/-- C1 (amended): for circles with positive radii, `dist > r1 + r2` gives
`NoCollision`; exact equality `dist = r1 + r2` gives `Penetration` with
depth `0` (the boundary is inclusive on the collision side, not
classified as `NoCollision`); `dist ≤ r2` gives `FullOverlap`, exact
equality `dist = r2` included. -/
theorem circle_circle_classification (c1 c2 : Circle)
    (hr1 : 0 < c1.r) (_hr2 : 0 < c2.r) :
    ((c1.pos - c2.pos).length > c1.r + c2.r →
      circle_circle_collision c1 c2 = CollisionResult.NoCollision) ∧
    ((c1.pos - c2.pos).length = c1.r + c2.r →
      circle_circle_collision c1 c2 = CollisionResult.Penetration
        ⟨c1.pos - c1.r • (c1.pos - c2.pos).normalize, (c1.pos - c2.pos).normalize, 0⟩) ∧
    ((c1.pos - c2.pos).length ≤ c2.r →
      circle_circle_collision c1 c2 = CollisionResult.FullOverlap) := by
  refine ⟨fun hfar => ?_, fun heq => ?_, fun hovl => ?_⟩
  · unfold circle_circle_collision
    rw [if_pos hfar]
  · unfold circle_circle_collision
    rw [if_neg (not_lt.mpr heq.le), if_pos (by rw [heq]; linarith), heq, sub_self]
  · unfold circle_circle_collision
    rw [if_neg (not_lt.mpr (by linarith)), if_neg (not_lt.mpr hovl)]

/-- C1 witness: disjoint circles (`dist = 5 > 1 + 2`) are classified
`NoCollision`, and coincident-center circles (`dist = 0 ≤ 2`) are
classified `FullOverlap`. -/
theorem circle_circle_classification_witness :
    circle_circle_collision ⟨⟨5, 0⟩, 1⟩ ⟨⟨0, 0⟩, 2⟩ = CollisionResult.NoCollision ∧
    circle_circle_collision ⟨⟨4, 0⟩, 1⟩ ⟨⟨4, 0⟩, 2⟩ = CollisionResult.FullOverlap := by
  constructor
  · have hd : (Circle.mk ⟨5, 0⟩ 1).pos - (Circle.mk ⟨0, 0⟩ 2).pos = (⟨5, 0⟩ : Vec2) := by
      ext <;> norm_num
    have hlen : Vec2.length ((Circle.mk ⟨5, 0⟩ 1).pos - (Circle.mk ⟨0, 0⟩ 2).pos) = 5 := by
      rw [hd, Vec2.length_axis]; norm_num
    exact (circle_circle_classification ⟨⟨5, 0⟩, 1⟩ ⟨⟨0, 0⟩, 2⟩ (by norm_num)
      (by norm_num)).1 (by rw [hlen]; norm_num)
  · have hd : (Circle.mk ⟨4, 0⟩ 1).pos - (Circle.mk ⟨4, 0⟩ 2).pos = (⟨0, 0⟩ : Vec2) := by
      ext <;> norm_num
    have hlen : Vec2.length ((Circle.mk ⟨4, 0⟩ 1).pos - (Circle.mk ⟨4, 0⟩ 2).pos) = 0 := by
      rw [hd, Vec2.length_axis]; norm_num
    exact (circle_circle_classification ⟨⟨4, 0⟩, 1⟩ ⟨⟨4, 0⟩, 2⟩ (by norm_num)
      (by norm_num)).2.2 (by rw [hlen]; norm_num)

/-- C5 counterexample: a unit circle centered exactly on the line `x = 0`
(`t = 0`, `dist = 0`) makes `circle_line_collision` normalize the
zero-length offset vector: the returned `Penetration` carries the
degenerate normal `(0,0)`, which is not a unit vector. -/
theorem circle_line_zero_normalize_cex :
    circle_line_collision ⟨⟨0, 0⟩, 1⟩ ⟨1, 0, 0⟩ =
      CollisionResult.Penetration ⟨⟨0, 0⟩, ⟨0, 0⟩, 1⟩ ∧
    Vec2.length ⟨0, 0⟩ ≠ 1 := by
  have ht : lineT ⟨⟨0, 0⟩, 1⟩ ⟨1, 0, 0⟩ = 0 := by
    unfold lineT; norm_num
  have hd : lineDiff ⟨⟨0, 0⟩, 1⟩ ⟨1, 0, 0⟩ = ⟨0, 0⟩ := by
    unfold lineDiff; rw [ht]; ext <;> norm_num
  have hlen0 : Vec2.length ⟨0, 0⟩ = 0 := by rw [Vec2.length_axis]; norm_num
  constructor
  · unfold circle_line_collision
    rw [if_neg (by rw [hd, hlen0]; norm_num), hd, ht, hlen0, Vec2.normalize_zero]
    rw [show signum 0 = 1 by unfold signum; norm_num]
    norm_num
    constructor <;> ext <;> simp
  · rw [hlen0]; norm_num

/-- C5 (amended): `circle_circle_collision` never normalizes a zero-length
vector (its `Penetration` branch requires `dist > r2 ≥ 0`), but
`circle_line_collision` does: for a circle centered exactly at the line's
perpendicular foot (`dist = 0 < r`) the offset vector `diff` is the zero
vector, yet the `Penetration` branch is taken and builds its normal — and
from it the contact point — by normalizing that zero vector.  The returned
depth equals `r` (it is computed without the normalize), while the normal
is the degenerate result of normalizing zero (non-finite in `f32`; the
zero vector in this real model) and is not a unit vector; the contact
point `c.pos − r·normalize(0)` inherits the same degeneracy, so no
on-the-line conclusion is claimed for it.  The payload below keeps
`Vec2.normalize ⟨0,0⟩` unevaluated: exactly the expression the source
computes. -/
theorem circle_line_foot_spec (ci : Circle) (l : Line) (_hab : l.a ≠ 0 ∨ l.b ≠ 0)
    (hfoot : l.a * ci.pos.x + l.b * ci.pos.y + l.c = 0) (hr : 0 < ci.r) :
    lineDiff ci l = ⟨0, 0⟩ ∧
    circle_line_collision ci l = CollisionResult.Penetration
      ⟨ci.pos - ci.r • Vec2.normalize ⟨0, 0⟩, Vec2.normalize ⟨0, 0⟩, ci.r⟩ ∧
    (Vec2.normalize ⟨0, 0⟩).length ≠ 1 := by
  have ht : lineT ci l = 0 := by
    unfold lineT; rw [hfoot, zero_div]
  have hd : lineDiff ci l = ⟨0, 0⟩ := by
    unfold lineDiff; rw [ht]; ext <;> norm_num
  have hlen0 : Vec2.length ⟨0, 0⟩ = 0 := by rw [Vec2.length_axis]; norm_num
  refine ⟨hd, ?_, ?_⟩
  · unfold circle_line_collision
    rw [if_neg (by rw [hd, hlen0]; exact not_lt.mpr hr.le), hd, hlen0]
    norm_num
  · rw [Vec2.normalize_zero, show (0 : Vec2) = ⟨0, 0⟩ from rfl, hlen0]
    norm_num

/-- C5 witness: the circle of radius `2` centered at `(0,5)` on the line
`y = 5` has a zero offset vector, yet yields `Penetration` whose normal is
the normalization of that zero vector (not a unit vector) and whose depth
is `2`. -/
theorem circle_line_foot_spec_witness :
    lineDiff ⟨⟨0, 5⟩, 2⟩ ⟨0, -1, 5⟩ = ⟨0, 0⟩ ∧
    circle_line_collision ⟨⟨0, 5⟩, 2⟩ ⟨0, -1, 5⟩ = CollisionResult.Penetration
      ⟨Vec2.mk 0 5 - (2 : ℝ) • Vec2.normalize ⟨0, 0⟩, Vec2.normalize ⟨0, 0⟩, 2⟩ ∧
    (Vec2.normalize ⟨0, 0⟩).length ≠ 1 :=
  circle_line_foot_spec ⟨⟨0, 5⟩, 2⟩ ⟨0, -1, 5⟩ (Or.inr (by norm_num))
    (by norm_num) (by norm_num)

/-- C3: when the narrow-phase test inside `Body.collide` yields a
`Penetration` whose normal is a unit vector, the post-collision velocity
mirrors the normal component (`v'·n = −(v·n)`), keeps the tangential
component (`v' − (v'·n)n = v − (v·n)n`) and preserves speed
(`|v'| = |v|`). -/
theorem collide_reflection (b : Body) (g : Geometry) (p : Penetration)
    (hres : b.collisionTest g = CollisionResult.Penetration p)
    (hn : p.normal.length = 1) :
    ((b.collide g).vel).dot p.normal = -(b.vel.dot p.normal) ∧
    (b.collide g).vel - (((b.collide g).vel).dot p.normal) • p.normal =
      b.vel - (b.vel.dot p.normal) • p.normal ∧
    ((b.collide g).vel).length = b.vel.length := by
  have hnn : p.normal.dot p.normal = 1 := Vec2.dot_self_of_length_one _ hn
  have hcol : (b.collide g).vel = b.vel - (2 * b.vel.dot p.normal) • p.normal := by
    rw [Body.collide_of_penetration b g p hres]
  rw [hcol]
  exact ⟨Vec2.reflect_dot b.vel p.normal hnn,
    Vec2.reflect_tangent b.vel p.normal hnn,
    Vec2.reflect_length b.vel p.normal hnn⟩

/-- C3 witness: a body of radius `2` centered at `(1,0)` with velocity
`(-2,5)` against the line `x = 0` penetrates with unit normal `(1,0)`; the
reflection law then holds at this input. -/
theorem collide_reflection_witness :
    Body.collisionTest ⟨1, 1, FiniteShape.Circle ⟨⟨0, 0⟩, 2⟩, ⟨1, 0⟩, ⟨-2, 5⟩, 0, 0, 0, 0⟩
        (Geometry.Infinite (InfiniteShape.Line ⟨1, 0, 0⟩)) =
      CollisionResult.Penetration ⟨⟨-1, 0⟩, ⟨1, 0⟩, 1⟩ ∧
    Vec2.length ⟨1, 0⟩ = 1 ∧
    ((Body.collide ⟨1, 1, FiniteShape.Circle ⟨⟨0, 0⟩, 2⟩, ⟨1, 0⟩, ⟨-2, 5⟩, 0, 0, 0, 0⟩
        (Geometry.Infinite (InfiniteShape.Line ⟨1, 0, 0⟩))).vel).dot ⟨1, 0⟩ =
      -(Vec2.dot ⟨-2, 5⟩ ⟨1, 0⟩) := by
  have ht : lineT ⟨⟨1, 0⟩, 2⟩ ⟨1, 0, 0⟩ = 1 := by
    unfold lineT; norm_num
  have hd : lineDiff ⟨⟨1, 0⟩, 2⟩ ⟨1, 0, 0⟩ = ⟨1, 0⟩ := by
    unfold lineDiff; rw [ht]; ext <;> norm_num
  have hlen1 : Vec2.length ⟨1, 0⟩ = 1 := by rw [Vec2.length_axis]; norm_num
  have hnorm : Vec2.normalize ⟨1, 0⟩ = ⟨1, 0⟩ := by
    unfold Vec2.normalize; rw [hlen1]; ext <;> norm_num
  have htest :
      Body.collisionTest ⟨1, 1, FiniteShape.Circle ⟨⟨0, 0⟩, 2⟩, ⟨1, 0⟩, ⟨-2, 5⟩, 0, 0, 0, 0⟩
          (Geometry.Infinite (InfiniteShape.Line ⟨1, 0, 0⟩)) =
        CollisionResult.Penetration ⟨⟨-1, 0⟩, ⟨1, 0⟩, 1⟩ := by
    show circle_line_collision ⟨⟨1, 0⟩, 2⟩ ⟨1, 0, 0⟩ =
      CollisionResult.Penetration ⟨⟨-1, 0⟩, ⟨1, 0⟩, 1⟩
    unfold circle_line_collision
    rw [if_neg (by rw [hd, hlen1]; norm_num), hd, ht, hlen1, hnorm,
        show signum 1 = 1 by unfold signum; norm_num]
    norm_num
    ext <;> norm_num
  have h := collide_reflection
    ⟨1, 1, FiniteShape.Circle ⟨⟨0, 0⟩, 2⟩, ⟨1, 0⟩, ⟨-2, 5⟩, 0, 0, 0, 0⟩
    (Geometry.Infinite (InfiniteShape.Line ⟨1, 0, 0⟩)) ⟨⟨-1, 0⟩, ⟨1, 0⟩, 1⟩ htest hlen1
  exact ⟨htest, hlen1, h.1⟩

end Pheng
